import Mathlib

/-!
Verification of the long-running-operation waiter of the yandexcloud
python SDK (src/yandexcloud/_operation_waiter.py), shallowly embedded.

The status client is modelled as a stream of fetch results indexed by a
global fetch counter; the wall clock is a stream of readings indexed the
same way (the j-th performed fetch is paired with the clock reading that
the same `__next__` call would observe at its deadline check).
-/

/-- Model of the grpc Operation message returned by `operation_service.Get`:
the `done` flag the waiter inspects plus an opaque payload standing for the
remaining fields (id, response, error, ...), which the waiter passes through
untouched. -/
structure Snapshot where
  done : Bool
  payload : Nat
deriving DecidableEq, Repr

/-- Outcome of one `operation_service.Get` call: either raises a transport
error (abstracted as a numeric code) or returns an operation message, which
the code guards against being `None`. -/
inductive FetchResult where
  | transportError (code : Nat)
  | ok (op : Option Snapshot)
deriving DecidableEq, Repr

/-- Events the convenience driver `wait_for_operation` writes to its
`print_to_stream` sink: a progress marker (the character written by
`print_to_stream.write`) and a flush. -/
inductive Ev where
  | mark
  | flush
deriving DecidableEq, Repr

/-- State of an `OperationWaiter` instance: the privately stored
`__operation` snapshot (initially `None`) and the `__deadline` computed at
construction. The operation id and service reference are modelled by the
ambient client stream. -/
structure OperationWaiter where
  operation : Option Snapshot
  deadline : Option Int
deriving DecidableEq, Repr

namespace OperationWaiter

/-- Embeds `OperationWaiter.__init__`: `self.__operation = None` and
`self.__deadline = time.time() + timeout if timeout else None`. A Python
`timeout` of `None` or `0` is falsy, so no deadline is stored; any other
value yields the absolute deadline `now + timeout`. -/
def init (timeout : Option Int) (now : Int) : OperationWaiter :=
  { operation := none
    deadline :=
      match timeout with
      | none => none
      | some t => if t = 0 then none else some (now + t) }

end OperationWaiter

/-- Waiter state together with the number of `Get` fetches performed so far
against the status client; the counter indexes the client and clock
streams. -/
structure WaiterSys where
  w : OperationWaiter
  fetches : Nat
deriving DecidableEq, Repr

/-- Embeds the guard `self.__operation is not None and self.__operation.done`
of the `done` property. -/
def snapDone : Option Snapshot → Bool
  | none => false
  | some s => s.done

/-- Embeds `self.__deadline is not None and time.time() >= self.__deadline`
from `__next__`, given the clock reading `now`. -/
def deadlineHit : Option Int → Int → Bool
  | none, _ => false
  | some d, now => decide (d ≤ now)

/-- Whether a fetch result reports a finished operation; a transport error
reports nothing. -/
def fetchDone : FetchResult → Bool
  | .transportError _ => false
  | .ok op => snapDone op

/-- Embeds one `__next__` call on the waiter: the `done` property performs
exactly one `Get` fetch, stores the result in `self.__operation`, and
reports its `done` flag; `__next__` then raises StopIteration (finished)
when the flag is true or the deadline has passed. A fetch that raises
leaves the waiter untouched (the assignment never runs) and propagates the
error; the fetch was still consumed, so the counter advances. -/
def poll (client : Nat → FetchResult) (times : Nat → Int) (s : WaiterSys) :
    Except Nat Bool × WaiterSys :=
  match client s.fetches with
  | .transportError e => (.error e, { s with fetches := s.fetches + 1 })
  | .ok op =>
      (.ok (snapDone op || deadlineHit s.w.deadline (times s.fetches)),
       { w := { operation := op, deadline := s.w.deadline }
         fetches := s.fetches + 1 })

/-- Result and state after the (n+1)-th consecutive `__next__` call starting
from state `s`. -/
def pollN (client : Nat → FetchResult) (times : Nat → Int) (s : WaiterSys) :
    Nat → Except Nat Bool × WaiterSys
  | 0 => poll client times s
  | n + 1 => poll client times (pollN client times s n).2

/-- Embeds the `for _ in ...` loop of `wait_for_operation`: each iteration
calls `__next__`; StopIteration ends the loop, an error propagates, and
otherwise the body writes a marker to the sink (when present) and flushes
it. `fuel` bounds the number of iterations modelled; `none` means the loop
did not terminate within the fuel. -/
def wfoLoop (client : Nat → FetchResult) (times : Nat → Int) (sink : Bool) :
    Nat → WaiterSys → List Ev → Option (Except Nat (WaiterSys × List Ev))
  | 0, _, _ => none
  | fuel + 1, s, acc =>
      match poll client times s with
      | (.error e, _) => some (.error e)
      | (.ok true, s2) => some (.ok (s2, acc))
      | (.ok false, s2) =>
          wfoLoop client times sink fuel s2
            (if sink then acc ++ [Ev.mark, Ev.flush] else acc)

/-- Embeds `wait_for_operation` as written in the source: it constructs
`waiter` (at clock reading `t0`), then iterates over a second, freshly
constructed waiter (at clock reading `t1`) — not over `waiter` — and on
termination returns `waiter.operation`, the first waiter's stored snapshot.
Returns the snapshot together with the sink events. -/
def wait_for_operation (client : Nat → FetchResult) (times : Nat → Int)
    (timeout : Option Int) (t0 t1 : Int) (sink : Bool) (fuel : Nat) :
    Option (Except Nat (Option Snapshot × List Ev)) :=
  let waiter := OperationWaiter.init timeout t0
  match wfoLoop client times sink fuel ⟨OperationWaiter.init timeout t1, 0⟩ [] with
  | none => none
  | some (.error e) => some (.error e)
  | some (.ok (_, ev)) => some (.ok (waiter.operation, ev))

section Lemmas

variable (client : Nat → FetchResult) (times : Nat → Int)

theorem poll_deadline (s : WaiterSys) :
    (poll client times s).2.w.deadline = s.w.deadline := by
  unfold poll
  cases client s.fetches <;> rfl

theorem poll_fetches (s : WaiterSys) :
    (poll client times s).2.fetches = s.fetches + 1 := by
  unfold poll
  cases client s.fetches <;> rfl

theorem pollN_deadline (s : WaiterSys) (n : Nat) :
    (pollN client times s n).2.w.deadline = s.w.deadline := by
  induction n with
  | zero => exact poll_deadline client times s
  | succ n ih => rw [pollN, poll_deadline]; exact ih

theorem pollN_fetches (s : WaiterSys) (n : Nat) :
    (pollN client times s n).2.fetches = s.fetches + n + 1 := by
  induction n with
  | zero => exact poll_fetches client times s
  | succ n ih => rw [pollN, poll_fetches, ih]; omega

theorem pollN_fst (s : WaiterSys) (n : Nat) :
    (pollN client times s n).1 =
      (match client (s.fetches + n) with
       | .transportError e => .error e
       | .ok op => .ok (snapDone op ||
           deadlineHit s.w.deadline (times (s.fetches + n)))) := by
  cases n with
  | zero =>
      show (poll client times s).1 = _
      simp only [Nat.add_zero]
      unfold poll
      cases client s.fetches <;> rfl
  | succ n =>
      show (poll client times (pollN client times s n).2).1 = _
      unfold poll
      rw [pollN_fetches, pollN_deadline,
        show s.fetches + (n + 1) = s.fetches + n + 1 from rfl]
      cases client (s.fetches + n + 1) <;> rfl

theorem pollN_operation (s : WaiterSys) (n : Nat) (op : Option Snapshot)
    (h : client (s.fetches + n) = .ok op) :
    (pollN client times s n).2.w.operation = op := by
  cases n with
  | zero =>
      simp only [Nat.add_zero] at h
      show (poll client times s).2.w.operation = op
      unfold poll
      rw [h]
  | succ n =>
      rw [show s.fetches + (n + 1) = s.fetches + n + 1 from rfl] at h
      show (poll client times (pollN client times s n).2).2.w.operation = op
      unfold poll
      rw [pollN_fetches, h]

theorem pollN_succ_shift (s : WaiterSys) (n : Nat) :
    pollN client times s (n + 1) =
      pollN client times (poll client times s).2 n := by
  induction n with
  | zero => rfl
  | succ n ih =>
      show poll client times (pollN client times s (n + 1)).2 =
        poll client times (pollN client times (poll client times s).2 n).2
      rw [ih]

theorem wfoLoop_run (N : Nat) :
    ∀ (fuel : Nat) (s : WaiterSys) (acc : List Ev), N < fuel →
      (∀ i, i < N → (pollN client times s i).1 = .ok false) →
      (pollN client times s N).1 = .ok true →
      wfoLoop client times true fuel s acc =
        some (.ok ((pollN client times s N).2,
          acc ++ List.flatten (List.replicate N [Ev.mark, Ev.flush]))) := by
  induction N with
  | zero =>
      intro fuel s acc hfuel _ htrue
      obtain ⟨fuel, rfl⟩ : ∃ f, fuel = f + 1 := ⟨fuel - 1, by omega⟩
      rcases hp : poll client times s with ⟨r, s2⟩
      have hr : r = .ok true := by
        have := htrue; rw [show pollN client times s 0 = poll client times s
          from rfl, hp] at this; exact this
      subst hr
      rw [wfoLoop, hp]
      simp [pollN, hp]
  | succ N ih =>
      intro fuel s acc hfuel hfalse htrue
      obtain ⟨fuel, rfl⟩ : ∃ f, fuel = f + 1 := ⟨fuel - 1, by omega⟩
      rcases hp : poll client times s with ⟨r, s2⟩
      have hr : r = .ok false := by
        have h0 := hfalse 0 (Nat.succ_pos N)
        rw [show pollN client times s 0 = poll client times s
          from rfl, hp] at h0
        exact h0
      subst hr
      rw [wfoLoop, hp]
      show wfoLoop client times true fuel s2 (acc ++ [Ev.mark, Ev.flush]) = _
      have hs2 : (poll client times s).2 = s2 := by rw [hp]
      have hfalse2 : ∀ i, i < N → (pollN client times s2 i).1 = .ok false := by
        intro i hi
        rw [← hs2, ← pollN_succ_shift]
        exact hfalse (i + 1) (by omega)
      have htrue2 : (pollN client times s2 N).1 = .ok true := by
        rw [← hs2, ← pollN_succ_shift]
        exact htrue
      rw [ih fuel s2 (acc ++ [Ev.mark, Ev.flush]) (by omega) hfalse2 htrue2,
        ← hs2, ← pollN_succ_shift]
      simp [List.replicate_succ]

end Lemmas

/-- Status client that always answers with the same fetch result. -/
def constClient (r : FetchResult) : Nat → FetchResult := fun _ => r

/-- Status client whose operation becomes done starting with the k-th fetch
(0-based index `k`), not done before. -/
def doneAfter (k : Nat) : Nat → FetchResult :=
  fun i => .ok (some ⟨decide (k ≤ i), i⟩)

/-- Clock stuck at a single reading. -/
def constTimes (t : Int) : Nat → Int := fun _ => t

/-- System state of a freshly constructed waiter: `__init__` run at clock
reading `t0`, no fetch performed yet. -/
def initSys (timeout : Option Int) (t0 : Int) : WaiterSys :=
  ⟨OperationWaiter.init timeout t0, 0⟩

theorem initSys_fetches (timeout : Option Int) (t0 : Int) :
    (initSys timeout t0).fetches = 0 := rfl

theorem initSys_deadline (timeout : Option Int) (t0 : Int) :
    (initSys timeout t0).w.deadline = (OperationWaiter.init timeout t0).deadline := rfl

/-- Status client whose first fetch raises transport error 7 and whose later
fetches return a not-done operation. -/
def errThenOk : Nat → FetchResult :=
  fun i => if i = 0 then .transportError 7 else .ok (some ⟨false, 2⟩)

/-- Status client that reports the operation done on the first fetch and not
done afterwards. -/
def doneThenNot : Nat → FetchResult :=
  fun i => if i = 0 then .ok (some ⟨true, 0⟩) else .ok (some ⟨false, 0⟩)

/-- C4: every `Poll()` performs exactly one fetch (the counter advances by
one), evaluates the deadline only after the fetch, signals finished exactly
when the fetched snapshot is done or the deadline has passed — the done flag
checked first, so a done snapshot finishes regardless of the clock — and a
deadline-triggered finish still stores the snapshot fetched during that same
call. -/
theorem poll_fetch_then_deadline (client : Nat → FetchResult)
    (times : Nat → Int) (s : WaiterSys) (op : Option Snapshot)
    (h : client s.fetches = .ok op) :
    (poll client times s).2.fetches = s.fetches + 1 ∧
    (poll client times s).1 =
      .ok (snapDone op || deadlineHit s.w.deadline (times s.fetches)) ∧
    (poll client times s).2.w.operation = op ∧
    (snapDone op = true → (poll client times s).1 = .ok true) ∧
    (snapDone op = false →
      (poll client times s).1 = .ok (deadlineHit s.w.deadline (times s.fetches))) := by
  have hp : poll client times s =
      (.ok (snapDone op || deadlineHit s.w.deadline (times s.fetches)),
       { w := { operation := op, deadline := s.w.deadline },
         fetches := s.fetches + 1 }) := by
    unfold poll; rw [h]
  refine ⟨by rw [hp], by rw [hp], by rw [hp], ?_, ?_⟩ <;>
    intro hd <;> rw [hp, hd] <;> simp

/-- C4 witness: a not-done fetch against a waiter with a live deadline. -/
theorem poll_fetch_then_deadline_witness :
    (poll (constClient (.ok (some ⟨false, 1⟩))) (constTimes 0)
        (initSys (some 10) 0)).1 =
      .ok (snapDone (some ⟨false, 1⟩) ||
        deadlineHit (initSys (some 10) 0).w.deadline
          (constTimes 0 (initSys (some 10) 0).fetches)) ∧
    (poll (constClient (.ok (some ⟨false, 1⟩))) (constTimes 0)
        (initSys (some 10) 0)).2.fetches = (initSys (some 10) 0).fetches + 1 := by
  have h := poll_fetch_then_deadline (constClient (.ok (some ⟨false, 1⟩)))
    (constTimes 0) (initSys (some 10) 0) (some ⟨false, 1⟩) rfl
  exact ⟨h.2.1, h.1⟩

/-- C5: a fetch that raises a transport error propagates the error unchanged
from `Poll()`, leaves the waiter's stored snapshot and deadline exactly as
before the call, and the next `Poll()` is still evaluated against the
deadline computed at construction. -/
theorem poll_error_propagates (client : Nat → FetchResult)
    (times : Nat → Int) (s : WaiterSys) (e : Nat)
    (h : client s.fetches = .transportError e) :
    (poll client times s).1 = .error e ∧
    (poll client times s).2.w = s.w ∧
    (∀ op2, client (s.fetches + 1) = .ok op2 →
      (pollN client times s 1).1 =
        .ok (snapDone op2 || deadlineHit s.w.deadline (times (s.fetches + 1)))) := by
  have hp : poll client times s =
      (.error e, { s with fetches := s.fetches + 1 }) := by
    unfold poll; rw [h]
  refine ⟨by rw [hp], by rw [hp], ?_⟩
  intro op2 h2
  rw [pollN_fst, h2]

/-- C5 witness: error code 7 on the first fetch, ordinary fetch afterwards. -/
theorem poll_error_propagates_witness :
    (poll errThenOk (constTimes 0) (initSys (some 10) 0)).1 = .error 7 ∧
    (poll errThenOk (constTimes 0) (initSys (some 10) 0)).2.w =
      (initSys (some 10) 0).w ∧
    (pollN errThenOk (constTimes 0) (initSys (some 10) 0) 1).1 =
      .ok (snapDone (some ⟨false, 2⟩) ||
        deadlineHit (initSys (some 10) 0).w.deadline
          (constTimes 0 ((initSys (some 10) 0).fetches + 1))) := by
  have h := poll_error_propagates errThenOk (constTimes 0)
    (initSys (some 10) 0) 7 rfl
  exact ⟨h.1, h.2.1, h.2.2 (some ⟨false, 2⟩) rfl⟩

/-- C6: after any `Poll()` that does not raise, the `operation` accessor
holds exactly the snapshot fetched during that call, whether or not the call
signalled finished. -/
theorem lastSnapshot_equals_fetched (client : Nat → FetchResult)
    (times : Nat → Int) (s : WaiterSys) (op : Option Snapshot)
    (h : client s.fetches = .ok op) :
    (poll client times s).2.w.operation = op := by
  unfold poll; rw [h]

/-- C6 witness: one finished poll (done snapshot) and one unfinished poll
(not-done snapshot, no deadline), each storing what it fetched. -/
theorem lastSnapshot_equals_fetched_witness :
    (poll (constClient (.ok (some ⟨true, 4⟩))) (constTimes 0)
      (initSys none 0)).2.w.operation = some ⟨true, 4⟩ ∧
    (poll (constClient (.ok (some ⟨false, 5⟩))) (constTimes 0)
      (initSys none 0)).2.w.operation = some ⟨false, 5⟩ :=
  ⟨lastSnapshot_equals_fetched _ _ _ _ rfl,
   lastSnapshot_equals_fetched _ _ _ _ rfl⟩

/-- C10: a fetch returning an absent (`None`) operation does not fail: the
absent snapshot is stored, the done guard evaluates to false, and the call
finishes only through the deadline condition. -/
theorem poll_absent_snapshot (client : Nat → FetchResult)
    (times : Nat → Int) (s : WaiterSys) (h : client s.fetches = .ok none) :
    (poll client times s).1 =
      .ok (deadlineHit s.w.deadline (times s.fetches)) ∧
    (poll client times s).2.w.operation = none ∧
    (∀ e, (poll client times s).1 ≠ .error e) ∧
    (s.w.deadline = none → (poll client times s).1 = .ok false) := by
  have hp : poll client times s =
      (.ok (snapDone none || deadlineHit s.w.deadline (times s.fetches)),
       { w := { operation := none, deadline := s.w.deadline },
         fetches := s.fetches + 1 }) := by
    unfold poll; rw [h]
  refine ⟨by rw [hp]; simp [snapDone], by rw [hp], ?_, ?_⟩
  · intro e; rw [hp]; simp
  · intro hd; rw [hp, hd]; simp [snapDone, deadlineHit]

/-- C10 witness: absent snapshots against a deadline-bearing waiter and a
deadline-free waiter. -/
theorem poll_absent_snapshot_witness :
    (poll (constClient (.ok none)) (constTimes 3) (initSys (some 2) 0)).1 =
      .ok (deadlineHit (initSys (some 2) 0).w.deadline
        (constTimes 3 (initSys (some 2) 0).fetches)) ∧
    (poll (constClient (.ok none)) (constTimes 3)
      (initSys (some 2) 0)).2.w.operation = none ∧
    (poll (constClient (.ok none)) (constTimes 0) (initSys none 0)).1 =
      .ok false := by
  have h1 := poll_absent_snapshot (constClient (.ok none)) (constTimes 3)
    (initSys (some 2) 0) rfl
  have h2 := poll_absent_snapshot (constClient (.ok none)) (constTimes 0)
    (initSys none 0) rfl
  exact ⟨h1.1, h1.2.1, h2.2.2.2 rfl⟩

/-- C7: a positive timeout stores the absolute deadline `now + timeout`; a
zero or absent timeout stores no deadline; no poll ever changes the stored
deadline; and with no deadline a waiter whose client keeps reporting
not-done never signals finished, at any poll. -/
theorem deadline_policy :
    (∀ t : Int, 0 < t → ∀ now : Int,
      (OperationWaiter.init (some t) now).deadline = some (now + t)) ∧
    (∀ now : Int, (OperationWaiter.init none now).deadline = none) ∧
    (∀ now : Int, (OperationWaiter.init (some 0) now).deadline = none) ∧
    (∀ (client : Nat → FetchResult) (times : Nat → Int) (s : WaiterSys),
      (poll client times s).2.w.deadline = s.w.deadline) ∧
    (∀ (client : Nat → FetchResult) (times : Nat → Int) (t0 : Int),
      (∀ i, ∃ op, client i = .ok op ∧ snapDone op = false) →
      ∀ n, (pollN client times (initSys none t0) n).1 = .ok false) := by
  refine ⟨?_, fun _ => rfl, fun _ => rfl, poll_deadline, ?_⟩
  · intro t ht now
    show (if t = 0 then none else some (now + t) : Option Int) = some (now + t)
    rw [if_neg (by omega)]
  · intro client times t0 hc n
    obtain ⟨op, hop, hdone⟩ := hc n
    rw [pollN_fst, initSys_fetches, Nat.zero_add, hop]
    have hdl : (initSys none t0).w.deadline = none := rfl
    simp [hdl, hdone, deadlineHit]

/-- C7 witness: deadline of a 5-unit timeout, no deadline without a timeout,
and a deadline-free waiter still unfinished on its fourth poll under a huge
clock reading. -/
theorem deadline_policy_witness :
    (OperationWaiter.init (some 5) 2).deadline = some (2 + 5) ∧
    (OperationWaiter.init none 2).deadline = none ∧
    (pollN (constClient (.ok (some ⟨false, 0⟩))) (constTimes 99)
      (initSys none 0) 3).1 = .ok false := by
  have h := deadline_policy
  exact ⟨h.1 5 (by norm_num) 2, h.2.1 2,
    h.2.2.2.2 _ _ 0 (fun _ => ⟨some ⟨false, 0⟩, rfl, rfl⟩) 3⟩

/-- C2 counterexample: timeout 1 constructed at clock 0, clock reading 5 at
the first poll, client not-done on the first fetch and done first on the
second fetch (k = 2); the first poll already signals finished, so finished
is not false on every call before the k-th. -/
theorem deadline_preempts_kth_done_cex :
    fetchDone (doneAfter 1 0) = false ∧
    fetchDone (doneAfter 1 1) = true ∧
    (pollN (doneAfter 1) (constTimes 5) (initSys (some 1) 0) 0).1 =
      .ok true :=
  ⟨rfl, rfl, rfl⟩

/-- C2 (amended): for every timeout (including absent) and every positive k,
if the status client reports done for the first time on the k-th fetch and,
in addition, the deadline (when one is set) is not reached at any of the
first k-1 polls, then `Poll()` signals finished exactly on the k-th call and
on none of the earlier calls. -/
theorem finished_exactly_on_kth_poll (client : Nat → FetchResult)
    (times : Nat → Int) (timeout : Option Int) (t0 : Int) (k : Nat)
    (_hk : 0 < k)
    (hnd : ∀ i, i + 1 < k → ∃ op, client i = .ok op ∧ snapDone op = false)
    (hd : ∃ op, client (k - 1) = .ok op ∧ snapDone op = true)
    (hdl : ∀ i, i + 1 < k →
      deadlineHit (OperationWaiter.init timeout t0).deadline (times i) = false) :
    (∀ i, i + 1 < k →
      (pollN client times (initSys timeout t0) i).1 = .ok false) ∧
    (pollN client times (initSys timeout t0) (k - 1)).1 = .ok true := by
  constructor
  · intro i hi
    obtain ⟨op, hop, hdone⟩ := hnd i hi
    rw [pollN_fst, initSys_fetches, Nat.zero_add, hop]
    simp [hdone, initSys_deadline, hdl i hi]
  · obtain ⟨op, hop, hdone⟩ := hd
    rw [pollN_fst, initSys_fetches, Nat.zero_add, hop]
    simp [hdone]

/-- C2 witness: the spec scenario — no timeout, not-done for three fetches,
done on the fourth (k = 4): the second poll is unfinished and the fourth
finishes. -/
theorem finished_exactly_on_kth_poll_witness :
    (pollN (doneAfter 3) (constTimes 0) (initSys none 0) 1).1 = .ok false ∧
    (pollN (doneAfter 3) (constTimes 0) (initSys none 0) 3).1 = .ok true := by
  have h := finished_exactly_on_kth_poll (doneAfter 3) (constTimes 0) none 0 4
    (by norm_num)
    (fun i hi => ⟨some ⟨false, i⟩, by
      unfold doneAfter
      rw [decide_eq_false (by omega)], rfl⟩)
    ⟨some ⟨true, 3⟩, rfl, rfl⟩
    (fun i _ => rfl)
  exact ⟨h.1 1 (by norm_num), h.2⟩

/-- C3: with a positive timeout t and a client that always returns not-done
snapshots, every poll whose clock reading is strictly before t0 + t is
unfinished, and every poll whose clock reading is at or past t0 + t signals
finished while the stored snapshot still has its done flag false. -/
theorem timeout_path (t : Int) (ht : 0 < t) (client : Nat → FetchResult)
    (times : Nat → Int) (t0 : Int)
    (hc : ∀ i, ∃ p, client i = .ok (some p) ∧ p.done = false) (n : Nat) :
    (times n < t0 + t →
      (pollN client times (initSys (some t) t0) n).1 = .ok false) ∧
    (t0 + t ≤ times n →
      (pollN client times (initSys (some t) t0) n).1 = .ok true ∧
      ∃ p, (pollN client times (initSys (some t) t0) n).2.w.operation = some p ∧
        p.done = false) := by
  obtain ⟨p, hp, hpd⟩ := hc n
  have hdl : (initSys (some t) t0).w.deadline = some (t0 + t) := by
    show (if t = 0 then none else some (t0 + t) : Option Int) = some (t0 + t)
    rw [if_neg (by omega)]
  constructor
  · intro hlt
    rw [pollN_fst, initSys_fetches, Nat.zero_add, hp, hdl]
    simp [snapDone, hpd, deadlineHit]
    omega
  · intro hge
    refine ⟨?_, p, ?_, hpd⟩
    · rw [pollN_fst, initSys_fetches, Nat.zero_add, hp, hdl]
      simp [snapDone, hpd, deadlineHit]
      omega
    · exact pollN_operation client times _ n _
        (by rw [initSys_fetches, Nat.zero_add]; exact hp)

/-- C3 witness: the spec scenario with timeout 5 from clock 0 — a poll at
clock 2 is unfinished; a poll at clock 9 finishes with a not-done stored
snapshot. -/
theorem timeout_path_witness :
    (pollN (constClient (.ok (some ⟨false, 3⟩))) (constTimes 2)
      (initSys (some 5) 0) 1).1 = .ok false ∧
    ((pollN (constClient (.ok (some ⟨false, 3⟩))) (constTimes 9)
      (initSys (some 5) 0) 4).1 = .ok true ∧
      ∃ p, (pollN (constClient (.ok (some ⟨false, 3⟩))) (constTimes 9)
        (initSys (some 5) 0) 4).2.w.operation = some p ∧ p.done = false) :=
  ⟨(timeout_path 5 (by norm_num) _ _ 0
      (fun _ => ⟨⟨false, 3⟩, rfl, rfl⟩) 1).1 (by decide),
   (timeout_path 5 (by norm_num) _ _ 0
      (fun _ => ⟨⟨false, 3⟩, rfl, rfl⟩) 4).2 (by decide)⟩

/-- C9 counterexample: the waiter keeps no latched state — with no timeout
and a client whose operation is done on the first fetch but not done on the
second, the first poll signals finished and the very next poll does not, so
finished is not terminal over arbitrary response sequences. -/
theorem finished_not_latched_cex :
    (pollN doneThenNot (constTimes 0) (initSys none 0) 0).1 = .ok true ∧
    (pollN doneThenNot (constTimes 0) (initSys none 0) 1).1 = .ok false :=
  ⟨rfl, rfl⟩

/-- C9 (amended): provided the client's done flag is monotone over fetches
(a done operation never reports not-done later) and the clock readings are
non-decreasing, once a poll signals finished, every later poll whose fetch
returns (does not raise) also signals finished. -/
theorem finished_monotone (client : Nat → FetchResult) (times : Nat → Int)
    (timeout : Option Int) (t0 : Int)
    (hmono : ∀ i j, i ≤ j → fetchDone (client i) = true →
      fetchDone (client j) = true)
    (htimes : ∀ i j, i ≤ j → times i ≤ times j)
    (m n : Nat) (hmn : m ≤ n)
    (hm : (pollN client times (initSys timeout t0) m).1 = .ok true)
    (op2 : Option Snapshot) (hn : client n = .ok op2) :
    (pollN client times (initSys timeout t0) n).1 = .ok true := by
  rw [pollN_fst, initSys_fetches, Nat.zero_add] at hm ⊢
  rw [hn]
  cases hcm : client m with
  | transportError e =>
      rw [hcm] at hm
      exact absurd hm (by simp)
  | ok op =>
      rw [hcm] at hm
      have hm2 : (snapDone op ||
          deadlineHit (initSys timeout t0).w.deadline (times m)) = true := by
        simpa using hm
      rcases Bool.or_eq_true_iff.mp hm2 with hdone | hdl
      · have hj : fetchDone (client n) = true :=
          hmono m n hmn (by rw [hcm]; exact hdone)
        rw [hn] at hj
        simp only [fetchDone] at hj
        simp [hj]
      · cases hdl2 : (initSys timeout t0).w.deadline with
        | none => rw [hdl2] at hdl; simp [deadlineHit] at hdl
        | some d =>
            rw [hdl2] at hdl
            have h1 : d ≤ times m := by simpa [deadlineHit] using hdl
            have h2 : d ≤ times n := le_trans h1 (htimes m n hmn)
            simp [deadlineHit, h2]

/-- C9 witness: an always-done client and a constant clock — finished on the
first poll stays finished on the second. -/
theorem finished_monotone_witness :
    (pollN (doneAfter 0) (constTimes 0) (initSys none 0) 1).1 = .ok true :=
  finished_monotone (doneAfter 0) (constTimes 0) none 0
    (fun _ j _ _ => by simp [doneAfter, fetchDone, snapDone])
    (fun _ _ _ => le_refl 0)
    0 1 (by omega) rfl (some ⟨true, 1⟩) rfl

/-- C8: a run of `wait_for_operation` with a progress sink in which the
iterated waiter's first N polls are unfinished and the (N+1)-th finishes
writes exactly N markers, each immediately followed by a flush, to the sink;
the terminal poll contributes nothing (and all writes come from the driver
loop — the waiter itself, embedded as `poll`, emits no events). -/
theorem wfo_progress_markers (client : Nat → FetchResult)
    (times : Nat → Int) (timeout : Option Int) (t0 t1 : Int) (N fuel : Nat)
    (hfuel : N < fuel)
    (hfalse : ∀ i, i < N →
      (pollN client times (initSys timeout t1) i).1 = .ok false)
    (htrue : (pollN client times (initSys timeout t1) N).1 = .ok true) :
    wait_for_operation client times timeout t0 t1 true fuel =
      some (.ok ((OperationWaiter.init timeout t0).operation,
        List.flatten (List.replicate N [Ev.mark, Ev.flush]))) := by
  unfold wait_for_operation
  rw [show (⟨OperationWaiter.init timeout t1, 0⟩ : WaiterSys) =
    initSys timeout t1 from rfl]
  rw [wfoLoop_run client times N fuel (initSys timeout t1) [] hfuel hfalse htrue]
  simp

/-- C8 witness: two unfinished polls then a finishing one give the event
list marker, flush, marker, flush. -/
theorem wfo_progress_markers_witness :
    wait_for_operation (doneAfter 2) (constTimes 0) none 0 0 true 3 =
      some (.ok ((OperationWaiter.init none 0).operation,
        List.flatten (List.replicate 2 [Ev.mark, Ev.flush]))) :=
  wfo_progress_markers (doneAfter 2) (constTimes 0) none 0 0 2 3
    (by omega)
    (fun i hi => by
      match i with
      | 0 => exact rfl
      | 1 => exact rfl
      | j + 2 => exact absurd hi (by omega))
    rfl

/-- C1: the claim fails on the code. `wait_for_operation` binds `waiter` but
iterates over a second, freshly constructed waiter, and returns
`waiter.operation` — the never-polled first waiter's snapshot, which is
`None`. At a client whose very first fetch reports done with payload 0, the
terminal poll of the iterated waiter fetched the snapshot (done, 0), yet the
function returns an absent snapshot instead of that terminal snapshot. -/
theorem wfo_returns_unpolled_waiter_snapshot :
    wait_for_operation (doneAfter 0) (constTimes 0) none 0 0 false 1 =
      some (.ok (none, [])) ∧
    (pollN (doneAfter 0) (constTimes 0) (initSys none 0) 0).2.w.operation =
      some ⟨true, 0⟩ :=
  ⟨rfl, rfl⟩
